import Mathlib

/-!
Verification development for the preprocess pipeline
(src/preprocess/preprocess.py of We-Gold/visualize-guitar).

The Python source is shallowly embedded: Python ints become Int/Nat,
Python floats become rationals (exact real arithmetic), dictionaries
become association lists or total functions with an explicit default,
and the per-track MIDI message loop becomes a fold over a message list
with an explicit state record.
-/

namespace Preprocess

/-- Embeds STANDARD_TUNING = [40, 45, 50, 55, 59, 64] (preprocess.py line 12),
standard tuning MIDI numbers, low E to high E. -/
def STANDARD_TUNING : List Int := [40, 45, 50, 55, 59, 64]

/-- First half of NOTE_NAMES (split only to keep the literal readable). -/
def NOTE_NAMES_LOW : List String := ["C", "C#", "D", "D#", "E", "F"]

/-- Second half of NOTE_NAMES. -/
def NOTE_NAMES_HIGH : List String := ["F#", "G", "G#", "A", "A#", "B"]

/-- Embeds NOTE_NAMES (preprocess.py line 14): the twelve pitch-class names
C, C#, D, D#, E, F, F#, G, G#, A, A#, B in order. -/
def NOTE_NAMES : List String := NOTE_NAMES_LOW ++ NOTE_NAMES_HIGH

/-- Default value threaded to List.getD; the index NOTE_NAMES[midi % 12] is
always in range (Python % on a positive modulus lands in [0, 12), as does
Int.emod in Lean), so the default is never consulted. -/
def emptyStr : String := ""

/-- Embeds midi_to_note_name (preprocess.py lines 17-27):
octave = (midi // 12) - 1, name = NOTE_NAMES[midi % 12], f-string concatenation.
Python floor division // is Int.fdiv; Python % with positive modulus agrees
with Lean Int.emod (both yield a representative in [0, 12)). -/
def midi_to_note_name (midi : Int) : String :=
  let octave : Int := midi.fdiv 12 - 1
  let name : String := NOTE_NAMES.getD (midi % 12).toNat emptyStr
  name ++ toString octave

/-- Embeds the pitch computation in the GP5 traversal (preprocess.py lines 54-58):
string_index = 6 - string_number; midi_pitch = STANDARD_TUNING[string_index] + fret.
For string_number in 1..6 the index is in range 0..5 (the only regime the spec
claims); Python would raise IndexError for index 6 and up and would wrap
negatively for string_number 0, neither of which is in scope here. -/
def fret_to_midi_pitch (string_number : Nat) (fret : Int) : Int :=
  let string_index : Nat := 6 - string_number
  STANDARD_TUNING.getD string_index 0 + fret

/-- Modelled from the spec: the TimeConverter of the tablature-only pipeline
(spec section 4.2) is code of this repository that is not under src/
(only the dual-source preprocess.py is); the definition follows the formula of the spec
verbatim: quarterPerUnit = 4 / denominator,
ticksPerQuarter = ticksPerBeat / quarterPerUnit,
secondsPerQuarter = 60 / tempo,
seconds = (ticks / ticksPerQuarter) * secondsPerQuarter. -/
def ticksToSeconds (ticks ticksPerBeat tempo denominator : ℚ) : ℚ :=
  let quarterPerUnit : ℚ := 4 / denominator
  let ticksPerQuarter : ℚ := ticksPerBeat / quarterPerUnit
  let secondsPerQuarter : ℚ := 60 / tempo
  (ticks / ticksPerQuarter) * secondsPerQuarter

/-- A string/fret record, the value type of gp5_note_mapping
(preprocess.py line 44: Key: midi_pitch, Value: dict with string and fret). -/
structure SFMapping where
  string : Nat
  fret : Int
deriving DecidableEq

/-- gp5_note_mapping is a Python dict keyed by MIDI pitch; embedded as an
association list with unique keys, insertion appending at the end. -/
abbrev PitchMap := List (Int × SFMapping)

/-- Embeds one observation step of the GP5 mapping loop (preprocess.py lines
60-68): if the pitch is absent, insert it; then (the pitch being present
either way) compare the stored mapping against the observed one and print a
warning when they differ. Returns the updated map and the number of warning
messages printed by this observation (0 or 1). -/
def pm_insert (m : PitchMap) (midi_pitch : Int) (string_number : Nat) (fret : Int) :
    PitchMap × Nat :=
  let m1 := if (List.lookup midi_pitch m).isNone
    then m ++ [(midi_pitch, ⟨string_number, fret⟩)] else m
  let warn :=
    match List.lookup midi_pitch m1 with
    | some existing_mapping =>
        if existing_mapping.string ≠ string_number ∨ existing_mapping.fret ≠ fret
        then 1 else 0
    | none => 0
  (m1, warn)

/-- GP5 note as exposed by the guitarpro library: note.string, note.value. -/
structure GP5Note where
  string : Nat
  value : Int
deriving DecidableEq

structure GP5Beat where
  notes : List GP5Note
deriving DecidableEq

structure GP5Voice where
  beats : List GP5Beat
deriving DecidableEq

structure GP5Measure where
  voices : List GP5Voice
deriving DecidableEq

structure GP5Track where
  isPercussionTrack : Bool
  measures : List GP5Measure
deriving DecidableEq

/-- Accumulator for the GP5 traversal: the mapping so far and the total
number of warnings printed so far. -/
abbrev PMAcc := PitchMap × Nat

def pm_observe (acc : PMAcc) (note : GP5Note) : PMAcc :=
  let r := pm_insert acc.1 (fret_to_midi_pitch note.string note.value) note.string note.value
  (r.1, acc.2 + r.2)

def processGP5Beat (acc : PMAcc) (beat : GP5Beat) : PMAcc :=
  beat.notes.foldl pm_observe acc

def processGP5Voice (acc : PMAcc) (voice : GP5Voice) : PMAcc :=
  voice.beats.foldl processGP5Beat acc

def processGP5Measure (acc : PMAcc) (measure : GP5Measure) : PMAcc :=
  measure.voices.foldl processGP5Voice acc

/-- Embeds the per-track GP5 loop (preprocess.py lines 46-68): percussion
tracks are skipped entirely (lines 47-48). -/
def processGP5Track (acc : PMAcc) (track : GP5Track) : PMAcc :=
  if track.isPercussionTrack then acc
  else track.measures.foldl processGP5Measure acc

/-- Embeds Part 1 of parse_gp5_and_midi (preprocess.py lines 43-68). -/
def build_gp5_note_mapping (tracks : List GP5Track) : PMAcc :=
  tracks.foldl processGP5Track ([], 0)

/-- Embeds mido.tick2second(tick, ticks_per_beat, tempo):
scale = tempo * 1e-6 / ticks_per_beat; return tick * scale
(exact rational arithmetic in place of floats). -/
def tick2second (tick : Int) (ticks_per_beat : Nat) (tempo : Nat) : ℚ :=
  ((tick : ℚ) * (tempo : ℚ)) / ((ticks_per_beat : ℚ) * 1000000)

/-- Embeds mido.tempo2bpm(tempo) = 60 * 1e6 / tempo. -/
def tempo2bpm (tempo : Nat) : ℚ := 60000000 / (tempo : ℚ)

/-- MIDI messages as consumed by the track loop (preprocess.py lines 91-177):
only the message kind and the fields the loop reads are modelled; every other
message kind falls under other (the loop ignores it after advancing time). -/
inductive MidiMsgType where
  | set_tempo (tempo : Nat)
  | time_signature (numerator : Nat) (denominator : Nat)
  | note_on (note : Int) (velocity : Nat) (channel : Nat)
  | note_off (note : Int) (velocity : Nat) (channel : Nat)
  | other
deriving DecidableEq

structure MidiMsg where
  type : MidiMsgType
  time : Int
deriving DecidableEq

/-- A pending onset, the element type of note_queue lists
(preprocess.py lines 114-120). -/
structure NoteOnData where
  absolute_time : ℚ
  absolute_ticks : Int
  velocity : ℚ
  channel : Nat
  midi_pitch : Int
deriving DecidableEq

/-- An emitted note, the element type of note_data_list
(preprocess.py lines 131-141 / 159-169). string and fret are None unless the
pitch is found in gp5_note_mapping. -/
structure NoteData where
  duration : ℚ
  durationTicks : Int
  midi : Int
  name : String
  ticks : Int
  time : ℚ
  velocity : ℚ
  string : Option Nat
  fret : Option Int
deriving DecidableEq

/-- Per-track mutable state of the message loop (preprocess.py lines 84-89).
note_queue is a dict pitch -> list; the loop only ever tests
(pitch in note_queue and len(note_queue[pitch]) > 0), so absent and
present-but-empty are indistinguishable and the dict is embedded as a total
function defaulting to []. warnings counts the warning lines printed. -/
structure TrackState where
  note_data_list : List NoteData
  note_queue : Int → List NoteOnData
  absolute_time_seconds : ℚ
  absolute_ticks : Int
  tempo_usec : Nat
  channel_percussion : List Nat
  warnings : Nat

def initTrackState : TrackState :=
  { note_data_list := []
    note_queue := fun _ => []
    absolute_time_seconds := 0
    absolute_ticks := 0
    tempo_usec := 500000
    channel_percussion := []
    warnings := 0 }

/-- Song-level output metadata (preprocess.py lines 73-81): tempo and
timeSignature start as None and are overwritten by meta events. -/
structure SongMeta where
  tempo : Option ℚ
  timeSignature : Option (Nat × Nat)
deriving DecidableEq

def initSongMeta : SongMeta := { tempo := none, timeSignature := none }

/-- Pointwise update of the note_queue function at one pitch. -/
def update_queue (q : Int → List NoteOnData) (p : Int) (l : List NoteOnData) :
    Int → List NoteOnData :=
  fun x => if x = p then l else q x

/-- Embeds Python set.add on channel_percussion (preprocess.py line 109). -/
def set_add (s : List Nat) (c : Nat) : List Nat :=
  if c ∈ s then s else s ++ [c]

/-- Embeds the delta-time accumulation at the top of the message loop
(preprocess.py lines 92-94): absolute seconds grow by the delta converted
with the tempo currently in force, absolute ticks by the raw delta. -/
def advance_time (tpb : Nat) (st : TrackState) (delta : Int) : TrackState :=
  { st with
    absolute_time_seconds :=
      st.absolute_time_seconds + tick2second delta tpb st.tempo_usec
    absolute_ticks := st.absolute_ticks + delta }

/-- The note_data dict built for a popped onset (preprocess.py lines 131-145
and, textually duplicated, lines 159-173): time/ticks/velocity from the
popped onset, duration/durationTicks against the current absolute position,
string/fret enriched from gp5_note_mapping when the pitch is present. -/
def emitted_note (gp5_note_mapping : PitchMap) (st : TrackState) (midi_pitch : Int)
    (note_on_data : NoteOnData) : NoteData :=
  { duration := st.absolute_time_seconds - note_on_data.absolute_time
    durationTicks := st.absolute_ticks - note_on_data.absolute_ticks
    midi := midi_pitch
    name := midi_to_note_name midi_pitch
    ticks := note_on_data.absolute_ticks
    time := note_on_data.absolute_time
    velocity := note_on_data.velocity
    string := (List.lookup midi_pitch gp5_note_mapping).map SFMapping.string
    fret := (List.lookup midi_pitch gp5_note_mapping).map SFMapping.fret }

/-- Embeds the note-off handling shared verbatim by the velocity-0 note_on
branch (preprocess.py lines 122-149) and the note_off branch (lines 150-177):
pop the FIFO head of the queue of that pitch, compute duration and durationTicks
against the current absolute time/ticks, drop the note if the channel of the popped onset
is 9, otherwise enrich with string/fret from gp5_note_mapping and
append; if the queue is empty, print a warning and change nothing else. -/
def handle_note_off (gp5_note_mapping : PitchMap) (st : TrackState) (midi_pitch : Int) :
    TrackState :=
  match st.note_queue midi_pitch with
  | note_on_data :: rest =>
      let st1 := { st with note_queue := update_queue st.note_queue midi_pitch rest }
      if note_on_data.channel ≠ 9 then
        { st1 with
          note_data_list :=
            st1.note_data_list ++ [emitted_note gp5_note_mapping st midi_pitch note_on_data] }
      else st1
  | [] => { st with warnings := st.warnings + 1 }

/-- Embeds one iteration of the message loop (preprocess.py lines 91-177):
first accumulate absolute time (converted with the tempo in force before this
message) and absolute ticks from the delta time, then dispatch on the type. -/
def process_message (tpb : Nat) (gp5_note_mapping : PitchMap)
    (acc : SongMeta × TrackState) (msg : MidiMsg) : SongMeta × TrackState :=
  let meta := acc.1
  let st0 := acc.2
  let st : TrackState := advance_time tpb st0 msg.time
  match msg.type with
  | MidiMsgType.set_tempo t =>
      ({ meta with tempo := some (tempo2bpm t) }, { st with tempo_usec := t })
  | MidiMsgType.time_signature n d =>
      ({ meta with timeSignature := some (n, d) }, st)
  | MidiMsgType.note_on p v c =>
      if v > 0 then
        let velocity : ℚ := (v : ℚ) / 127
        let st1 := if c = 9 then { st with channel_percussion := set_add st.channel_percussion c } else st
        let onset : NoteOnData :=
          { absolute_time := st1.absolute_time_seconds
            absolute_ticks := st1.absolute_ticks
            velocity := velocity
            channel := c
            midi_pitch := p }
        (meta, { st1 with note_queue := update_queue st1.note_queue p (st1.note_queue p ++ [onset]) })
      else
        (meta, handle_note_off gp5_note_mapping st p)
  | MidiMsgType.note_off p _ _ =>
      (meta, handle_note_off gp5_note_mapping st p)
  | MidiMsgType.other => (meta, st)

/-- Embeds the full message loop of one MIDI track (preprocess.py lines 84-177),
before the final sort. -/
def process_track (tpb : Nat) (gp5_note_mapping : PitchMap) (meta : SongMeta)
    (msgs : List MidiMsg) : SongMeta × TrackState :=
  msgs.foldl (process_message tpb gp5_note_mapping) (meta, initTrackState)

/-- Stable insertion by onset time: the new note is placed after every note
with a strictly smaller time and before the first note with an equal or
larger time. -/
def insertByTime (n : NoteData) : List NoteData → List NoteData
  | [] => [n]
  | m :: ms => if m.time < n.time then m :: insertByTime n ms else n :: m :: ms

/-- Embeds note_data_list.sort(key=lambda note: note["time"])
(preprocess.py line 180). Python list.sort is a stable sort by the key; a
stable sort by a total preorder is extensionally unique, so the stable
insertion sort below computes exactly the list Python produces. -/
def sortByTime : List NoteData → List NoteData
  | [] => []
  | n :: ns => insertByTime n (sortByTime ns)

/-- The note list of one output track: the notes emitted by the message loop,
sorted by onset time (preprocess.py lines 179-180). -/
def track_output_notes (tpb : Nat) (gp5_note_mapping : PitchMap) (meta : SongMeta)
    (msgs : List MidiMsg) : List NoteData :=
  sortByTime (process_track tpb gp5_note_mapping meta msgs).2.note_data_list

/-- A mido track as read by the loop: its name attribute and message list. -/
structure MidiTrack where
  name : String
  msgs : List MidiMsg

/-- One entry of output["tracks"] (preprocess.py lines 182-185). -/
structure OutputTrack where
  name : String
  notes : List NoteData
deriving DecidableEq

/-- One iteration of the outer track loop (preprocess.py lines 83-185): run
the message loop on the track (threading the shared metadata dict through),
then append the sorted note list of the track under its name (or "Unnamed Track"
when the name is falsy, i.e. the empty string). -/
def song_step (tpb : Nat) (gp5_note_mapping : PitchMap)
    (acc : SongMeta × List OutputTrack) (tr : MidiTrack) : SongMeta × List OutputTrack :=
  let r := process_track tpb gp5_note_mapping acc.1 tr.msgs
  (r.1, acc.2 ++
    [{ name := if tr.name = "" then "Unnamed Track" else tr.name
       notes := sortByTime r.2.note_data_list }])

/-- Embeds Part 2 of parse_gp5_and_midi (preprocess.py lines 83-185): tracks
are processed in file order, the song metadata dict being overwritten by
every meta event of every track. -/
def process_song (tpb : Nat) (gp5_note_mapping : PitchMap) (tracks : List MidiTrack) :
    SongMeta × List OutputTrack :=
  tracks.foldl (song_step tpb gp5_note_mapping) (initSongMeta, [])

/-- The tempo values of the set_tempo events of a message list, in order
(an observation function used to state what "the last set_tempo event"
means). -/
def set_tempo_values (msgs : List MidiMsg) : List Nat :=
  msgs.filterMap (fun m =>
    match m.type with | MidiMsgType.set_tempo t => some t | _ => none)

/-- The (numerator, denominator) pairs of the time_signature events of a
message list, in order. -/
def time_signature_values (msgs : List MidiMsg) : List (Nat × Nat) :=
  msgs.filterMap (fun m =>
    match m.type with | MidiMsgType.time_signature n d => some (n, d) | _ => none)

end Preprocess

namespace Preprocess

/-- Concrete FIFO example messages: two note_on for pitch 64 then two
note_off for pitch 64, all on channel 0, with deltas 0, 10, 10, 10 ticks. -/
def fifoMsgs : List MidiMsg :=
  [ { type := MidiMsgType.note_on 64 100 0, time := 0 }
  , { type := MidiMsgType.note_on 64 100 0, time := 10 }
  , { type := MidiMsgType.note_off 64 0 0, time := 10 }
  , { type := MidiMsgType.note_off 64 0 0, time := 10 } ]

/-- Concrete pending onset used by witnesses: pitch 64, channel 0,
queued at absolute time 0 / tick 0, full velocity. -/
def c1Onset : NoteOnData :=
  { absolute_time := 0, absolute_ticks := 0, velocity := 1, channel := 0, midi_pitch := 64 }

/-- Concrete track state used by witnesses: one pending onset for pitch 64. -/
def c1State : TrackState :=
  { initTrackState with note_queue := update_queue initTrackState.note_queue 64 [c1Onset] }

/-- Concrete note_off message for pitch 64, delta 10 ticks. -/
def c1Msg : MidiMsg := { type := MidiMsgType.note_off 64 5 0, time := 10 }

/-- Concrete pending onset on the percussion channel (9). -/
def c4Onset : NoteOnData :=
  { absolute_time := 0, absolute_ticks := 0, velocity := 1, channel := 9, midi_pitch := 64 }

/-- Concrete track state with one pending channel-9 onset for pitch 64. -/
def c4State : TrackState :=
  { initTrackState with note_queue := update_queue initTrackState.note_queue 64 [c4Onset] }

/-- Concrete message list whose only onsets are on channel 9. -/
def percMsgs : List MidiMsg :=
  [ { type := MidiMsgType.note_on 64 100 9, time := 0 }
  , { type := MidiMsgType.note_off 64 0 9, time := 10 } ]

/-- Concrete GP5 track flagged as percussion. -/
def percTrack : GP5Track :=
  { isPercussionTrack := true
    measures := [{ voices := [{ beats := [{ notes := [{ string := 3, value := 5 }] }] }] }] }

/-- The first note emitted for fifoMsgs (pitch 64 held for 20 ticks from
tick 0 at the default tempo). -/
def c8note : NoteData :=
  { duration := 1/48, durationTicks := 20, midi := 64, name := "E4",
    ticks := 0, time := 0, velocity := 100/127, string := none, fret := none }

example :
    (track_output_notes 480 [] initSongMeta fifoMsgs).map
        (fun n => (n.ticks, n.durationTicks, n.time, n.duration)) =
      [(0, 20, 0, 1/48), (10, 20, 1/96, 1/48)] := by
  norm_num [track_output_notes, process_track, process_message, handle_note_off,
    advance_time, emitted_note, tick2second, initTrackState, initSongMeta,
    fifoMsgs, update_queue, sortByTime, insertByTime]

theorem getD_eq_get (l : List String) (n : Nat) (d : String) (h : n < l.length) :
    l.getD n d = l.get ⟨n, h⟩ := by
  simp [List.getD_eq_getElem?_getD, List.getElem?_eq_getElem h]

/-- C10: midi_to_note_name is a pure total function over all integers p
returning NAMES[p mod 12] concatenated with floor(p/12) - 1; in particular
midi_to_note_name 60 = "C4", 69 = "A4", 0 = "C-1", and negative or above-127
inputs produce a syntactically valid name rather than an error
(witnessed at -1 and 128). -/
theorem midi_to_note_name_spec :
    (∀ p : Int, ∃ h : (p % 12).toNat < NOTE_NAMES.length,
        midi_to_note_name p =
          NOTE_NAMES.get ⟨(p % 12).toNat, h⟩ ++ toString (p.fdiv 12 - 1)) ∧
    midi_to_note_name 60 = "C4" ∧ midi_to_note_name 69 = "A4" ∧
    midi_to_note_name 0 = "C-1" ∧
    midi_to_note_name (-1) = "B-2" ∧ midi_to_note_name 128 = "G#9" := by
  refine ⟨?_, by decide, by decide, by decide, by decide, by decide⟩
  intro p
  have h0 : 0 ≤ p % 12 := Int.emod_nonneg p (by norm_num)
  have h1 : p % 12 < 12 := Int.emod_lt_of_pos p (by norm_num)
  have h12 : (p % 12).toNat < NOTE_NAMES.length := by
    simp only [NOTE_NAMES, List.length]
    omega
  exact ⟨h12, by rw [midi_to_note_name, getD_eq_get NOTE_NAMES _ _ h12]⟩

/-- C9: for a tablature note with stringNumber in 1..6 and fret, the computed
MIDI pitch is tuning[6 - stringNumber] + fret with the hardcoded tuning
[40, 45, 50, 55, 59, 64] indexed low-to-high, so string 1 (high E) reads
index 5 (value 64) and string 6 (low E) reads index 0 (value 40). -/
theorem fret_to_midi_pitch_spec (s : Nat) (f : Int) (h1 : 1 ≤ s) (h6 : s ≤ 6) :
    fret_to_midi_pitch s f = STANDARD_TUNING.getD (6 - s) 0 + f ∧
    STANDARD_TUNING = [40, 45, 50, 55, 59, 64] ∧
    fret_to_midi_pitch s f =
      (if s = 1 then 64 else if s = 2 then 59 else if s = 3 then 55
       else if s = 4 then 50 else if s = 5 then 45 else 40) + f := by
  refine ⟨rfl, rfl, ?_⟩
  interval_cases s <;> simp [fret_to_midi_pitch, STANDARD_TUNING]

/-- Witness for C9 at stringNumber 3, fret 5: pitch 60 (the PitchMap example
of the spec: pitch 60 observed at string 3 fret 5). -/
theorem fret_to_midi_pitch_spec_witness :
    fret_to_midi_pitch 3 5 =
      (if (3 : Nat) = 1 then 64 else if (3 : Nat) = 2 then 59
       else if (3 : Nat) = 3 then 55 else if (3 : Nat) = 4 then 50
       else if (3 : Nat) = 5 then 45 else 40) + 5 ∧
    fret_to_midi_pitch 3 5 = 60 :=
  ⟨(fret_to_midi_pitch_spec 3 5 (by decide) (by decide)).2.2, by decide⟩

theorem lookup_append_of_some {q : Int} {m l : PitchMap} {v : SFMapping}
    (h : List.lookup q m = some v) : List.lookup q (m ++ l) = some v := by
  induction m with
  | nil => simp [List.lookup] at h
  | cons kw m ih =>
      obtain ⟨k, w⟩ := kw
      rw [List.cons_append]
      rw [List.lookup] at h ⊢
      cases hqk : (q == k) with
      | true => rw [hqk] at h; exact h
      | false => rw [hqk] at h; exact ih h

theorem pm_insert_fst (m : PitchMap) (p : Int) (s : Nat) (f : Int) :
    (pm_insert m p s f).1 =
      (if (List.lookup p m).isNone then m ++ [(p, ⟨s, f⟩)] else m) := rfl

theorem lookup_pm_insert (m : PitchMap) (p : Int) (s : Nat) (f : Int)
    {q : Int} {v : SFMapping} (h : List.lookup q m = some v) :
    List.lookup q (pm_insert m p s f).1 = some v := by
  rw [pm_insert_fst]
  split
  · exact lookup_append_of_some h
  · exact h

theorem foldl_lookup_preserved {α : Type} (g : PMAcc → α → PMAcc)
    (hg : ∀ acc x q v, List.lookup q acc.1 = some v → List.lookup q (g acc x).1 = some v)
    (l : List α) :
    ∀ acc q v, List.lookup q acc.1 = some v → List.lookup q (l.foldl g acc).1 = some v := by
  induction l with
  | nil => intro acc q v h; exact h
  | cons x l ih =>
      intro acc q v h
      exact ih (g acc x) q v (hg acc x q v h)

theorem lookup_pm_observe (acc : PMAcc) (note : GP5Note) (q : Int) (v : SFMapping)
    (h : List.lookup q acc.1 = some v) : List.lookup q (pm_observe acc note).1 = some v :=
  lookup_pm_insert acc.1 _ _ _ h

theorem lookup_processGP5Beat (acc : PMAcc) (beat : GP5Beat) (q : Int) (v : SFMapping)
    (h : List.lookup q acc.1 = some v) : List.lookup q (processGP5Beat acc beat).1 = some v :=
  foldl_lookup_preserved pm_observe lookup_pm_observe beat.notes acc q v h

theorem lookup_processGP5Voice (acc : PMAcc) (voice : GP5Voice) (q : Int) (v : SFMapping)
    (h : List.lookup q acc.1 = some v) : List.lookup q (processGP5Voice acc voice).1 = some v :=
  foldl_lookup_preserved processGP5Beat lookup_processGP5Beat voice.beats acc q v h

theorem lookup_processGP5Measure (acc : PMAcc) (measure : GP5Measure) (q : Int) (v : SFMapping)
    (h : List.lookup q acc.1 = some v) :
    List.lookup q (processGP5Measure acc measure).1 = some v :=
  foldl_lookup_preserved processGP5Voice lookup_processGP5Voice measure.voices acc q v h

theorem lookup_processGP5Track (acc : PMAcc) (track : GP5Track) (q : Int) (v : SFMapping)
    (h : List.lookup q acc.1 = some v) : List.lookup q (processGP5Track acc track).1 = some v := by
  unfold processGP5Track
  split
  · exact h
  · exact foldl_lookup_preserved processGP5Measure lookup_processGP5Measure track.measures acc q v h

/-- C3: the pitch map is first-write-wins. An observation of an already-mapped
pitch leaves the map unchanged and warns exactly when the observed string/fret
differ from the stored ones; through any remaining GP5 traversal an entry,
once present, is never changed; concretely, inserting 60 at (string 3, fret 5)
and then 60 at (string 2, fret 1) leaves the map at (3, 5) and emits one
warning for the second observation. -/
theorem pitch_map_first_write_wins :
    (∀ (m : PitchMap) (p : Int) (s : Nat) (f : Int) (old : SFMapping),
        List.lookup p m = some old →
        (pm_insert m p s f).1 = m ∧
        (pm_insert m p s f).2 = (if old.string ≠ s ∨ old.fret ≠ f then 1 else 0)) ∧
    (∀ (tracks : List GP5Track) (acc : PMAcc) (p : Int) (v : SFMapping),
        List.lookup p acc.1 = some v →
        List.lookup p (tracks.foldl processGP5Track acc).1 = some v) ∧
    pm_insert [] 60 3 5 = ([(60, ⟨3, 5⟩)], 0) ∧
    pm_insert [(60, ⟨3, 5⟩)] 60 2 1 = ([(60, ⟨3, 5⟩)], 1) := by
  refine ⟨?_, ?_, by decide, by decide⟩
  · intro m p s f old h
    refine ⟨by rw [pm_insert_fst]; simp [h], ?_⟩
    show (pm_insert m p s f).2 = _
    simp [pm_insert, h]
  · intro tracks acc p v h
    exact foldl_lookup_preserved processGP5Track lookup_processGP5Track tracks acc p v h

/-- Witness for C3 at the concrete example of the spec: pitch 60 mapped to
(string 3, fret 5), then observed at (string 2, fret 1). -/
theorem pitch_map_first_write_wins_witness :
    (pm_insert [(60, ⟨3, 5⟩)] 60 2 1).1 = [(60, ⟨3, 5⟩)] ∧
    (pm_insert [(60, ⟨3, 5⟩)] 60 2 1).2 =
      (if (⟨3, 5⟩ : SFMapping).string ≠ 2 ∨ (⟨3, 5⟩ : SFMapping).fret ≠ 1 then 1 else 0) ∧
    List.lookup 60 (([] : List GP5Track).foldl processGP5Track ([(60, ⟨3, 5⟩)], 1)).1 =
      some ⟨3, 5⟩ := by
  have hl : List.lookup 60 ([(60, (⟨3, 5⟩ : SFMapping))] : PitchMap) = some ⟨3, 5⟩ := by decide
  have h1 := pitch_map_first_write_wins.1 [(60, ⟨3, 5⟩)] 60 2 1 ⟨3, 5⟩ hl
  have h2 := pitch_map_first_write_wins.2.1 [] ([(60, ⟨3, 5⟩)], 1) 60 ⟨3, 5⟩ hl
  exact ⟨h1.1, h1.2, h2⟩

/-- C2: the TimeConverter returns (ticks / (ticksPerBeat / (4 / denominator)))
times (60 / tempo), and at ticks 480, ticksPerBeat 480, tempo 120,
denominator 4 it returns one half. -/
theorem ticksToSeconds_spec :
    (∀ ticks ticksPerBeat tempo denominator : ℚ,
        ticksToSeconds ticks ticksPerBeat tempo denominator =
          (ticks / (ticksPerBeat / (4 / denominator))) * (60 / tempo)) ∧
    ticksToSeconds 480 480 120 4 = 1 / 2 := by
  exact ⟨fun t tpb tempo d => rfl, by norm_num [ticksToSeconds]⟩

theorem handle_note_off_pop (gp5 : PitchMap) (st : TrackState) (p : Int)
    (d : NoteOnData) (rest : List NoteOnData) (hq : st.note_queue p = d :: rest) :
    (handle_note_off gp5 st p).note_queue = update_queue st.note_queue p rest ∧
    (handle_note_off gp5 st p).absolute_time_seconds = st.absolute_time_seconds ∧
    (handle_note_off gp5 st p).absolute_ticks = st.absolute_ticks ∧
    (handle_note_off gp5 st p).tempo_usec = st.tempo_usec ∧
    (handle_note_off gp5 st p).warnings = st.warnings ∧
    (handle_note_off gp5 st p).note_data_list =
      (if d.channel = 9 then st.note_data_list
       else st.note_data_list ++ [emitted_note gp5 st p d]) := by
  unfold handle_note_off
  rw [hq]
  by_cases h9 : d.channel = 9 <;> simp [h9]

theorem handle_note_off_unmatched (gp5 : PitchMap) (st : TrackState) (p : Int)
    (hq : st.note_queue p = []) :
    handle_note_off gp5 st p = { st with warnings := st.warnings + 1 } := by
  unfold handle_note_off
  rw [hq]

theorem process_message_note_off_eq (tpb : Nat) (gp5 : PitchMap) (meta : SongMeta)
    (st : TrackState) (p : Int) (v c : Nat) (delta : Int) (msg : MidiMsg)
    (hmsg : msg = { type := MidiMsgType.note_off p v c, time := delta } ∨
      msg = { type := MidiMsgType.note_on p 0 c, time := delta }) :
    process_message tpb gp5 (meta, st) msg =
      (meta, handle_note_off gp5 (advance_time tpb st delta) p) := by
  rcases hmsg with rfl | rfl <;> rfl

theorem advance_time_note_queue (tpb : Nat) (st : TrackState) (delta : Int) :
    (advance_time tpb st delta).note_queue = st.note_queue := rfl

/-- C1: a note_off (or velocity-0 note_on) for pitch p pops the OLDEST queued
onset for p (the queue head d): the remaining queue is rest, and (when d is
not on channel 9) the emitted note takes time/ticks from d while
duration/durationTicks are the current absolute time/ticks (after the delta
of this message) minus those of d; concretely, two note_on for pitch 64 followed by
two note_off pair the first onset (tick 0) with the first offset and the
second onset (tick 10) with the second offset, each with durationTicks 20. -/
theorem fifo_note_matching :
    (∀ (tpb : Nat) (gp5 : PitchMap) (meta : SongMeta) (st : TrackState)
        (p : Int) (v c : Nat) (delta : Int) (d : NoteOnData) (rest : List NoteOnData)
        (msg : MidiMsg),
        st.note_queue p = d :: rest →
        (msg = { type := MidiMsgType.note_off p v c, time := delta } ∨
          msg = { type := MidiMsgType.note_on p 0 c, time := delta }) →
        (process_message tpb gp5 (meta, st) msg).2.note_queue p = rest ∧
        (d.channel ≠ 9 →
          (process_message tpb gp5 (meta, st) msg).2.note_data_list =
            st.note_data_list ++
              [{ duration :=
                   (st.absolute_time_seconds + tick2second delta tpb st.tempo_usec)
                     - d.absolute_time
                 durationTicks := (st.absolute_ticks + delta) - d.absolute_ticks
                 midi := p
                 name := midi_to_note_name p
                 ticks := d.absolute_ticks
                 time := d.absolute_time
                 velocity := d.velocity
                 string := (List.lookup p gp5).map SFMapping.string
                 fret := (List.lookup p gp5).map SFMapping.fret }])) ∧
    (track_output_notes 480 [] initSongMeta fifoMsgs).map
        (fun n => (n.ticks, n.durationTicks, n.time, n.duration)) =
      [(0, 20, 0, 1 / 48), (10, 20, 1 / 96, 1 / 48)] := by
  constructor
  · intro tpb gp5 meta st p v c delta d rest msg hq hmsg
    rw [process_message_note_off_eq tpb gp5 meta st p v c delta msg hmsg]
    have hq2 : (advance_time tpb st delta).note_queue p = d :: rest := hq
    have hpop := handle_note_off_pop gp5 (advance_time tpb st delta) p d rest hq2
    constructor
    · rw [hpop.1]
      simp [update_queue]
    · intro h9
      rw [hpop.2.2.2.2.2]
      simp [h9, emitted_note, advance_time]
  · norm_num [track_output_notes, process_track, process_message, handle_note_off,
      advance_time, emitted_note, tick2second, initTrackState, initSongMeta,
      fifoMsgs, update_queue, sortByTime, insertByTime]

/-- Witness for C1: a single pending onset for pitch 64 is popped and closed
by a note_off 10 ticks later. -/
theorem fifo_note_matching_witness :
    (process_message 480 [] (initSongMeta, c1State) c1Msg).2.note_queue 64 = [] ∧
    (process_message 480 [] (initSongMeta, c1State) c1Msg).2.note_data_list =
      c1State.note_data_list ++
        [{ duration :=
             (c1State.absolute_time_seconds + tick2second 10 480 c1State.tempo_usec)
               - c1Onset.absolute_time
           durationTicks := (c1State.absolute_ticks + 10) - c1Onset.absolute_ticks
           midi := 64
           name := midi_to_note_name 64
           ticks := c1Onset.absolute_ticks
           time := c1Onset.absolute_time
           velocity := c1Onset.velocity
           string := (List.lookup 64 ([] : PitchMap)).map SFMapping.string
           fret := (List.lookup 64 ([] : PitchMap)).map SFMapping.fret }] := by
  have h := fifo_note_matching.1 480 [] initSongMeta c1State 64 5 0 10 c1Onset []
    c1Msg (by simp [c1State, update_queue, initTrackState]) (Or.inl rfl)
  exact ⟨h.1, h.2 (by decide)⟩

theorem process_message_note_on_pos (tpb : Nat) (gp5 : PitchMap) (meta : SongMeta)
    (st : TrackState) (p : Int) (v c : Nat) (delta : Int) (hv : 0 < v) :
    (process_message tpb gp5 (meta, st)
        { type := MidiMsgType.note_on p v c, time := delta }).2.note_queue =
      update_queue st.note_queue p (st.note_queue p ++
        [{ absolute_time := st.absolute_time_seconds + tick2second delta tpb st.tempo_usec
           absolute_ticks := st.absolute_ticks + delta
           velocity := (v : ℚ) / 127
           channel := c
           midi_pitch := p }]) ∧
    (process_message tpb gp5 (meta, st)
        { type := MidiMsgType.note_on p v c, time := delta }).2.note_data_list =
      st.note_data_list ∧
    (process_message tpb gp5 (meta, st)
        { type := MidiMsgType.note_on p v c, time := delta }).2.absolute_time_seconds =
      st.absolute_time_seconds + tick2second delta tpb st.tempo_usec ∧
    (process_message tpb gp5 (meta, st)
        { type := MidiMsgType.note_on p v c, time := delta }).2.absolute_ticks =
      st.absolute_ticks + delta := by
  unfold process_message advance_time
  by_cases hc : c = 9 <;> simp [hv, hc]

theorem percussion_step (tpb : Nat) (gp5 : PitchMap) (meta : SongMeta) (st : TrackState)
    (m : MidiMsg)
    (hm : ∀ p v c, m.type = MidiMsgType.note_on p v c → 0 < v → c = 9)
    (hq : ∀ p d, d ∈ st.note_queue p → d.channel = 9)
    (hl : st.note_data_list = []) :
    (∀ p d, d ∈ (process_message tpb gp5 (meta, st) m).2.note_queue p → d.channel = 9) ∧
    (process_message tpb gp5 (meta, st) m).2.note_data_list = [] := by
  obtain ⟨mt, delta⟩ := m
  have hoff : ∀ p v c,
      (∀ q d, d ∈ st.note_queue q → d.channel = 9) →
      (∀ p2 d2, d2 ∈ (process_message tpb gp5 (meta, st)
          { type := MidiMsgType.note_off p v c, time := delta }).2.note_queue p2 →
        d2.channel = 9) ∧
      (process_message tpb gp5 (meta, st)
          { type := MidiMsgType.note_off p v c, time := delta }).2.note_data_list = [] := by
    intro p v c hq2
    rw [process_message_note_off_eq tpb gp5 meta st p v c delta _ (Or.inl rfl)]
    cases hqp : st.note_queue p with
    | nil =>
        rw [handle_note_off_unmatched gp5 (advance_time tpb st delta) p hqp]
        exact ⟨hq2, hl⟩
    | cons d rest =>
        have hpop := handle_note_off_pop gp5 (advance_time tpb st delta) p d rest hqp
        have h9 : d.channel = 9 := hq2 p d (by rw [hqp]; exact List.mem_cons_self _ _)
        constructor
        · intro p2 d2 hd2
          rw [hpop.1] at hd2
          unfold update_queue at hd2
          by_cases hpp : p2 = p
          · rw [if_pos hpp] at hd2
            exact hq2 p d2 (by rw [hqp]; exact List.mem_cons_of_mem _ hd2)
          · rw [if_neg hpp] at hd2
            exact hq2 p2 d2 hd2
        · rw [hpop.2.2.2.2.2, if_pos h9]
          exact hl
  cases mt with
  | set_tempo t => exact ⟨hq, hl⟩
  | time_signature n dd => exact ⟨hq, hl⟩
  | other => exact ⟨hq, hl⟩
  | note_off p v c => exact hoff p v c hq
  | note_on p v c =>
      by_cases hv : 0 < v
      · have hc : c = 9 := hm p v c rfl hv
        subst hc
        have hpos := process_message_note_on_pos tpb gp5 meta st p v 9 delta hv
        constructor
        · intro p2 d2 hd2
          rw [hpos.1] at hd2
          unfold update_queue at hd2
          by_cases hpp : p2 = p
          · rw [if_pos hpp] at hd2
            rcases List.mem_append.mp hd2 with hold | hnew
            · exact hq p d2 hold
            · rw [List.mem_singleton.mp hnew]
          · rw [if_neg hpp] at hd2
            exact hq p2 d2 hd2
        · rw [hpos.2.1]
          exact hl
      · have hv0 : v = 0 := by omega
        subst hv0
        have := hoff p 0 c hq
        constructor
        · intro p2 d2 hd2
          refine this.1 p2 d2 ?_
          have hpm : process_message tpb gp5 (meta, st)
                { type := MidiMsgType.note_on p 0 c, time := delta } =
              process_message tpb gp5 (meta, st)
                { type := MidiMsgType.note_off p 0 c, time := delta } := by
            rw [process_message_note_off_eq tpb gp5 meta st p 0 c delta _ (Or.inl rfl)]
            rw [process_message_note_off_eq tpb gp5 meta st p 0 c delta _ (Or.inr rfl)]
          rw [← hpm]
          exact hd2
        · have hpm : process_message tpb gp5 (meta, st)
                { type := MidiMsgType.note_on p 0 c, time := delta } =
              process_message tpb gp5 (meta, st)
                { type := MidiMsgType.note_off p 0 c, time := delta } := by
            rw [process_message_note_off_eq tpb gp5 meta st p 0 c delta _ (Or.inl rfl)]
            rw [process_message_note_off_eq tpb gp5 meta st p 0 c delta _ (Or.inr rfl)]
          rw [hpm]
          exact this.2

theorem percussion_track_empty (tpb : Nat) (gp5 : PitchMap) :
    ∀ (msgs : List MidiMsg) (meta : SongMeta) (st : TrackState),
      (∀ m ∈ msgs, ∀ p v c, m.type = MidiMsgType.note_on p v c → 0 < v → c = 9) →
      (∀ p d, d ∈ st.note_queue p → d.channel = 9) →
      st.note_data_list = [] →
      (∀ p d, d ∈ (List.foldl (process_message tpb gp5) (meta, st) msgs).2.note_queue p →
        d.channel = 9) ∧
      (List.foldl (process_message tpb gp5) (meta, st) msgs).2.note_data_list = [] := by
  intro msgs
  induction msgs with
  | nil => intro meta st hm hq hl; exact ⟨hq, hl⟩
  | cons m msgs ih =>
      intro meta st hm hq hl
      rw [List.foldl_cons]
      have hstep := percussion_step tpb gp5 meta st m
        (hm m (List.mem_cons_self _ _)) hq hl
      have hmem : ∀ x ∈ msgs, ∀ p v c, x.type = MidiMsgType.note_on p v c → 0 < v → c = 9 :=
        fun x hx => hm x (List.mem_cons_of_mem _ hx)
      have := ih (process_message tpb gp5 (meta, st) m).1
        (process_message tpb gp5 (meta, st) m).2 hmem hstep.1 hstep.2
      simpa using this

/-- C4: percussion is excluded from all output. A matched pair whose popped
onset sits on channel 9 produces no note (the channel test is applied to the
channel of the popped onset at note-off time); a track whose note_on events all
sit on channel 9 yields an empty output note list; a GP5 track flagged as a
percussion track leaves the pitch map accumulator untouched. -/
theorem percussion_excluded :
    (∀ (tpb : Nat) (gp5 : PitchMap) (meta : SongMeta) (st : TrackState)
        (p : Int) (v c : Nat) (delta : Int) (d : NoteOnData) (rest : List NoteOnData)
        (msg : MidiMsg),
        st.note_queue p = d :: rest →
        (msg = { type := MidiMsgType.note_off p v c, time := delta } ∨
          msg = { type := MidiMsgType.note_on p 0 c, time := delta }) →
        d.channel = 9 →
        (process_message tpb gp5 (meta, st) msg).2.note_data_list = st.note_data_list ∧
        (process_message tpb gp5 (meta, st) msg).2.note_queue p = rest) ∧
    (∀ (tpb : Nat) (gp5 : PitchMap) (meta : SongMeta) (msgs : List MidiMsg),
        (∀ m ∈ msgs, ∀ p v c, m.type = MidiMsgType.note_on p v c → 0 < v → c = 9) →
        track_output_notes tpb gp5 meta msgs = []) ∧
    (∀ (acc : PMAcc) (track : GP5Track),
        track.isPercussionTrack = true → processGP5Track acc track = acc) := by
  refine ⟨?_, ?_, ?_⟩
  · intro tpb gp5 meta st p v c delta d rest msg hq hmsg h9
    rw [process_message_note_off_eq tpb gp5 meta st p v c delta msg hmsg]
    have hpop := handle_note_off_pop gp5 (advance_time tpb st delta) p d rest hq
    constructor
    · rw [hpop.2.2.2.2.2, if_pos h9]
      rfl
    · rw [hpop.1]
      simp [update_queue]
  · intro tpb gp5 meta msgs hm
    have h := percussion_track_empty tpb gp5 msgs meta initTrackState hm
      (by intro p d hd; simp [initTrackState] at hd) rfl
    unfold track_output_notes process_track
    rw [h.2]
    rfl
  · intro acc track h
    unfold processGP5Track
    rw [if_pos h]

/-- Witness for C4: a channel-9 onset for pitch 64 closed by a note_off emits
nothing; the two-message channel-9 track emits an empty note list; the
percussion-flagged GP5 track leaves the empty accumulator unchanged. -/
theorem percussion_excluded_witness :
    ((process_message 480 [] (initSongMeta, c4State) c1Msg).2.note_data_list =
        c4State.note_data_list ∧
      (process_message 480 [] (initSongMeta, c4State) c1Msg).2.note_queue 64 = []) ∧
    track_output_notes 480 [] initSongMeta percMsgs = [] ∧
    processGP5Track ([], 0) percTrack = ([], 0) := by
  refine ⟨?_, ?_, ?_⟩
  · exact percussion_excluded.1 480 [] initSongMeta c4State 64 5 0 10 c4Onset [] c1Msg
      (by simp [c4State, update_queue, initTrackState]) (Or.inl rfl) (by decide)
  · refine percussion_excluded.2.1 480 [] initSongMeta percMsgs ?_
    intro m hm p v c hty hv
    simp [percMsgs] at hm
    rcases hm with rfl | rfl
    · cases hty
      rfl
    · cases hty
  · exact percussion_excluded.2.2 ([], 0) percTrack rfl

/-- C6: a note_off (or velocity-0 note_on) for a pitch with no pending onset
prints a warning, emits no note, leaves every queue and the note list
unchanged (only absolute time/ticks advance by the delta and the warning
count increments), and processing simply continues with the remaining
messages of the track. -/
theorem unmatched_note_off_warns :
    ∀ (tpb : Nat) (gp5 : PitchMap) (meta : SongMeta) (st : TrackState)
      (p : Int) (v c : Nat) (delta : Int) (msg : MidiMsg),
      st.note_queue p = [] →
      (msg = { type := MidiMsgType.note_off p v c, time := delta } ∨
        msg = { type := MidiMsgType.note_on p 0 c, time := delta }) →
      process_message tpb gp5 (meta, st) msg =
        (meta,
          { st with
            absolute_time_seconds :=
              st.absolute_time_seconds + tick2second delta tpb st.tempo_usec
            absolute_ticks := st.absolute_ticks + delta
            warnings := st.warnings + 1 }) ∧
      ∀ later : List MidiMsg,
        List.foldl (process_message tpb gp5) (meta, st) (msg :: later) =
          List.foldl (process_message tpb gp5) (process_message tpb gp5 (meta, st) msg) later := by
  intro tpb gp5 meta st p v c delta msg hq hmsg
  refine ⟨?_, fun later => rfl⟩
  rw [process_message_note_off_eq tpb gp5 meta st p v c delta msg hmsg]
  rw [handle_note_off_unmatched gp5 (advance_time tpb st delta) p hq]
  rfl

/-- Witness for C6: a note_off for pitch 72 (no pending onset) in the initial
state increments the warning count and changes nothing else. -/
theorem unmatched_note_off_warns_witness :
    process_message 480 [] (initSongMeta, initTrackState)
        { type := MidiMsgType.note_off 72 0 0, time := 10 } =
      (initSongMeta,
        { initTrackState with
          absolute_time_seconds :=
            initTrackState.absolute_time_seconds + tick2second 10 480 initTrackState.tempo_usec
          absolute_ticks := initTrackState.absolute_ticks + 10
          warnings := initTrackState.warnings + 1 }) :=
  (unmatched_note_off_warns 480 [] initSongMeta initTrackState 72 0 0 10
    { type := MidiMsgType.note_off 72 0 0, time := 10 } rfl (Or.inl rfl)).1

theorem perm_insertByTime (n : NoteData) (l : List NoteData) :
    (insertByTime n l).Perm (n :: l) := by
  induction l with
  | nil => exact List.Perm.refl _
  | cons m ms ih =>
      unfold insertByTime
      by_cases h : m.time < n.time
      · rw [if_pos h]
        exact (List.Perm.cons m ih).trans (List.Perm.swap n m ms)
      · rw [if_neg h]

theorem pairwise_insertByTime (n : NoteData) (l : List NoteData)
    (h : List.Pairwise (fun a b => a.time ≤ b.time) l) :
    List.Pairwise (fun a b => a.time ≤ b.time) (insertByTime n l) := by
  induction l with
  | nil => simp [insertByTime]
  | cons m ms ih =>
      rw [List.pairwise_cons] at h
      obtain ⟨hm, hms⟩ := h
      unfold insertByTime
      by_cases hlt : m.time < n.time
      · rw [if_pos hlt, List.pairwise_cons]
        refine ⟨?_, ih hms⟩
        intro x hx
        rcases List.mem_cons.mp ((perm_insertByTime n ms).mem_iff.mp hx) with rfl | hx3
        · exact le_of_lt hlt
        · exact hm x hx3
      · rw [if_neg hlt, List.pairwise_cons]
        refine ⟨?_, List.pairwise_cons.mpr ⟨hm, hms⟩⟩
        intro x hx
        rcases List.mem_cons.mp hx with rfl | hx3
        · exact le_of_not_lt hlt
        · exact le_trans (le_of_not_lt hlt) (hm x hx3)

theorem filter_insertByTime (n : NoteData) (l : List NoteData) (t : ℚ) :
    (insertByTime n l).filter (fun x => decide (x.time = t)) =
      (if n.time = t then n :: l.filter (fun x => decide (x.time = t))
       else l.filter (fun x => decide (x.time = t))) := by
  induction l with
  | nil => by_cases hnt : n.time = t <;> simp [insertByTime, hnt]
  | cons m ms ih =>
      unfold insertByTime
      by_cases hlt : m.time < n.time
      · rw [if_pos hlt]
        by_cases hnt : n.time = t
        · have hmt : m.time ≠ t := hnt ▸ ne_of_lt hlt
          simp [List.filter_cons, hmt, hnt, ih]
        · by_cases hmt : m.time = t <;> simp [List.filter_cons, hmt, hnt, ih]
      · rw [if_neg hlt]
        by_cases hnt : n.time = t <;> by_cases hmt : m.time = t <;>
          simp [List.filter_cons, hnt, hmt]

theorem perm_sortByTime (l : List NoteData) : (sortByTime l).Perm l := by
  induction l with
  | nil => exact List.Perm.refl _
  | cons n ns ih =>
      exact (perm_insertByTime n (sortByTime ns)).trans (List.Perm.cons n ih)

theorem pairwise_sortByTime (l : List NoteData) :
    List.Pairwise (fun a b => a.time ≤ b.time) (sortByTime l) := by
  induction l with
  | nil => simp [sortByTime]
  | cons n ns ih => exact pairwise_insertByTime n (sortByTime ns) ih

theorem filter_sortByTime (l : List NoteData) (t : ℚ) :
    (sortByTime l).filter (fun x => decide (x.time = t)) =
      l.filter (fun x => decide (x.time = t)) := by
  induction l with
  | nil => rfl
  | cons n ns ih =>
      by_cases hnt : n.time = t <;>
        simp [sortByTime, filter_insertByTime, hnt, ih]

/-- C7: the note list of each output track is the list emitted by the loop
sorted by onset time ascending, and the sort is stable: it is a permutation
of the emitted list, pairwise nondecreasing in time, and for every time value
t the sublist of notes with that exact onset time is kept in its original
emission order. -/
theorem notes_sorted_stably :
    ∀ (tpb : Nat) (gp5 : PitchMap) (meta : SongMeta) (msgs : List MidiMsg),
      List.Pairwise (fun a b => a.time ≤ b.time) (track_output_notes tpb gp5 meta msgs) ∧
      (track_output_notes tpb gp5 meta msgs).Perm
        (process_track tpb gp5 meta msgs).2.note_data_list ∧
      ∀ t : ℚ,
        (track_output_notes tpb gp5 meta msgs).filter (fun n => decide (n.time = t)) =
          ((process_track tpb gp5 meta msgs).2.note_data_list).filter
            (fun n => decide (n.time = t)) :=
  fun _ _ _ _ =>
    ⟨pairwise_sortByTime _, perm_sortByTime _, fun t => filter_sortByTime _ t⟩

theorem opt_or_none {α : Type} (a : Option α) : a.or none = a := by
  cases a <;> rfl

theorem opt_or_assoc {α : Type} (a b c : Option α) : (a.or b).or c = a.or (b.or c) := by
  cases a <;> rfl

theorem map_opt_or {α β : Type} (f : α → β) (a b : Option α) :
    (a.or b).map f = (a.map f).or (b.map f) := by
  cases a <;> rfl

theorem getLast?_cons_or {α : Type} (a : α) (l : List α) :
    (a :: l).getLast? = l.getLast?.or (some a) := by
  induction l generalizing a with
  | nil => rfl
  | cons b l ih =>
      rw [List.getLast?_cons_cons, ih b]
      cases l.getLast? <;> rfl

theorem getLast?_append_or {α : Type} (l1 l2 : List α) :
    (l1 ++ l2).getLast? = l2.getLast?.or l1.getLast? := by
  induction l1 with
  | nil => rw [List.nil_append, List.getLast?_nil, opt_or_none]
  | cons a l1 ih =>
      rw [List.cons_append, getLast?_cons_or, ih, getLast?_cons_or, opt_or_assoc]

theorem process_message_meta (tpb : Nat) (gp5 : PitchMap) (meta : SongMeta)
    (st : TrackState) (m : MidiMsg) :
    (process_message tpb gp5 (meta, st) m).1.tempo =
      ((match m.type with
        | MidiMsgType.set_tempo t => some (tempo2bpm t)
        | _ => none).or meta.tempo) ∧
    (process_message tpb gp5 (meta, st) m).1.timeSignature =
      ((match m.type with
        | MidiMsgType.time_signature n d => some (n, d)
        | _ => none).or meta.timeSignature) := by
  obtain ⟨mt, delta⟩ := m
  cases mt with
  | set_tempo t => exact ⟨rfl, rfl⟩
  | time_signature n d => exact ⟨rfl, rfl⟩
  | other => exact ⟨rfl, rfl⟩
  | note_off p v c => exact ⟨rfl, rfl⟩
  | note_on p v c =>
      by_cases hv : v > 0 <;>
        constructor <;> simp [process_message, hv]

theorem foldl_meta_tempo (tpb : Nat) (gp5 : PitchMap) :
    ∀ (msgs : List MidiMsg) (meta : SongMeta) (st : TrackState),
      (List.foldl (process_message tpb gp5) (meta, st) msgs).1.tempo =
        ((set_tempo_values msgs).getLast?.map tempo2bpm).or meta.tempo := by
  intro msgs
  induction msgs with
  | nil => intro meta st; rfl
  | cons m msgs ih =>
      intro meta st
      rw [List.foldl_cons]
      rcases hr : process_message tpb gp5 (meta, st) m with ⟨meta2, st2⟩
      have h2 := (process_message_meta tpb gp5 meta st m).1
      rw [hr] at h2
      rw [ih meta2 st2, h2]
      cases hmt : m.type <;>
        simp [set_tempo_values, List.filterMap_cons, hmt, getLast?_cons_or,
          map_opt_or, opt_or_assoc]

theorem foldl_meta_timesig (tpb : Nat) (gp5 : PitchMap) :
    ∀ (msgs : List MidiMsg) (meta : SongMeta) (st : TrackState),
      (List.foldl (process_message tpb gp5) (meta, st) msgs).1.timeSignature =
        (time_signature_values msgs).getLast?.or meta.timeSignature := by
  intro msgs
  induction msgs with
  | nil => intro meta st; rfl
  | cons m msgs ih =>
      intro meta st
      rw [List.foldl_cons]
      rcases hr : process_message tpb gp5 (meta, st) m with ⟨meta2, st2⟩
      have h2 := (process_message_meta tpb gp5 meta st m).2
      rw [hr] at h2
      rw [ih meta2 st2, h2]
      cases hmt : m.type <;>
        simp [time_signature_values, List.filterMap_cons, hmt, getLast?_cons_or,
          opt_or_assoc]

theorem set_tempo_values_append (l1 l2 : List MidiMsg) :
    set_tempo_values (l1 ++ l2) = set_tempo_values l1 ++ set_tempo_values l2 :=
  List.filterMap_append l1 l2 _

theorem time_signature_values_append (l1 l2 : List MidiMsg) :
    time_signature_values (l1 ++ l2) =
      time_signature_values l1 ++ time_signature_values l2 :=
  List.filterMap_append l1 l2 _

theorem foldl_song_tempo (tpb : Nat) (gp5 : PitchMap) :
    ∀ (tracks : List MidiTrack) (acc : SongMeta × List OutputTrack),
      (tracks.foldl (song_step tpb gp5) acc).1.tempo =
        ((set_tempo_values ((tracks.map MidiTrack.msgs).flatten)).getLast?.map
            tempo2bpm).or acc.1.tempo := by
  intro tracks
  induction tracks with
  | nil => intro acc; rfl
  | cons tr tracks ih =>
      intro acc
      rw [List.foldl_cons, ih]
      have h1 : (song_step tpb gp5 acc tr).1 = (process_track tpb gp5 acc.1 tr.msgs).1 := rfl
      have h2 : (process_track tpb gp5 acc.1 tr.msgs).1.tempo =
          ((set_tempo_values tr.msgs).getLast?.map tempo2bpm).or acc.1.tempo :=
        foldl_meta_tempo tpb gp5 tr.msgs acc.1 initTrackState
      rw [h1, h2, List.map_cons, List.flatten_cons, set_tempo_values_append,
        getLast?_append_or, map_opt_or, opt_or_assoc]

theorem foldl_song_timesig (tpb : Nat) (gp5 : PitchMap) :
    ∀ (tracks : List MidiTrack) (acc : SongMeta × List OutputTrack),
      (tracks.foldl (song_step tpb gp5) acc).1.timeSignature =
        ((time_signature_values ((tracks.map MidiTrack.msgs).flatten)).getLast?).or
          acc.1.timeSignature := by
  intro tracks
  induction tracks with
  | nil => intro acc; rfl
  | cons tr tracks ih =>
      intro acc
      rw [List.foldl_cons, ih]
      have h1 : (song_step tpb gp5 acc tr).1 = (process_track tpb gp5 acc.1 tr.msgs).1 := rfl
      have h2 : (process_track tpb gp5 acc.1 tr.msgs).1.timeSignature =
          ((time_signature_values tr.msgs).getLast?).or acc.1.timeSignature :=
        foldl_meta_timesig tpb gp5 tr.msgs acc.1 initTrackState
      rw [h1, h2, List.map_cons, List.flatten_cons, time_signature_values_append,
        getLast?_append_or, opt_or_assoc]

/-- C5: output meta.tempo is the BPM of the LAST set_tempo event across the
whole file in track order (none when there is no set_tempo event), and
meta.timeSignature is the (numerator, denominator) of the last time_signature
event (none when there is none), even though timing conversion starts from
the 500000 microseconds-per-beat default, i.e. 120 BPM. -/
theorem last_meta_event_wins :
    ∀ (tpb : Nat) (gp5 : PitchMap) (tracks : List MidiTrack),
      (process_song tpb gp5 tracks).1.tempo =
        (set_tempo_values ((tracks.map MidiTrack.msgs).flatten)).getLast?.map tempo2bpm ∧
      (process_song tpb gp5 tracks).1.timeSignature =
        (time_signature_values ((tracks.map MidiTrack.msgs).flatten)).getLast? ∧
      initTrackState.tempo_usec = 500000 ∧ tempo2bpm 500000 = 120 := by
  intro tpb gp5 tracks
  refine ⟨?_, ?_, rfl, by norm_num [tempo2bpm]⟩
  · rw [process_song, foldl_song_tempo tpb gp5 tracks (initSongMeta, [])]
    exact opt_or_none _
  · rw [process_song, foldl_song_timesig tpb gp5 tracks (initSongMeta, [])]
    exact opt_or_none _

theorem tick2second_nonneg (tick : Int) (tpb tempo : Nat) (h : 0 ≤ tick) :
    0 ≤ tick2second tick tpb tempo := by
  unfold tick2second
  apply div_nonneg
  · exact mul_nonneg (by exact_mod_cast h) (by positivity)
  · positivity

/-- The queue/notes invariant maintained by the message loop: every pending
onset lies no later than the current absolute position, and every emitted
note already has non-negative durations. -/
def NonnegInv (st : TrackState) : Prop :=
  (∀ p d, d ∈ st.note_queue p →
      d.absolute_time ≤ st.absolute_time_seconds ∧ d.absolute_ticks ≤ st.absolute_ticks) ∧
  (∀ n ∈ st.note_data_list, 0 ≤ n.duration ∧ 0 ≤ n.durationTicks)

theorem advance_time_inv (tpb : Nat) (st : TrackState) (delta : Int)
    (hdelta : 0 ≤ delta) (h : NonnegInv st) : NonnegInv (advance_time tpb st delta) := by
  obtain ⟨hq, hl⟩ := h
  constructor
  · intro p d hd
    obtain ⟨h1, h2⟩ := hq p d hd
    constructor
    · calc d.absolute_time ≤ st.absolute_time_seconds := h1
        _ ≤ st.absolute_time_seconds + tick2second delta tpb st.tempo_usec := by
            have := tick2second_nonneg delta tpb st.tempo_usec hdelta
            linarith
    · show d.absolute_ticks ≤ st.absolute_ticks + delta
      omega
  · exact hl

theorem nonneg_step (tpb : Nat) (gp5 : PitchMap) (meta : SongMeta) (st : TrackState)
    (m : MidiMsg) (hdelta : 0 ≤ m.time) (h : NonnegInv st) :
    NonnegInv (process_message tpb gp5 (meta, st) m).2 := by
  obtain ⟨mt, delta⟩ := m
  have hadv := advance_time_inv tpb st delta hdelta h
  have hoff : ∀ p v c,
      NonnegInv (process_message tpb gp5 (meta, st)
          { type := MidiMsgType.note_off p v c, time := delta }).2 := by
    intro p v c
    rw [process_message_note_off_eq tpb gp5 meta st p v c delta _ (Or.inl rfl)]
    obtain ⟨hq, hl⟩ := hadv
    cases hqp : (advance_time tpb st delta).note_queue p with
    | nil =>
        rw [handle_note_off_unmatched gp5 (advance_time tpb st delta) p hqp]
        exact ⟨hq, hl⟩
    | cons d rest =>
        have hpop := handle_note_off_pop gp5 (advance_time tpb st delta) p d rest hqp
        constructor
        · intro p2 d2 hd2
          rw [hpop.1] at hd2
          unfold update_queue at hd2
          rw [hpop.2.1, hpop.2.2.1]
          by_cases hpp : p2 = p
          · rw [if_pos hpp] at hd2
            exact hq p d2 (by rw [hqp]; exact List.mem_cons_of_mem _ hd2)
          · rw [if_neg hpp] at hd2
            exact hq p2 d2 hd2
        · intro n hn
          rw [hpop.2.2.2.2.2] at hn
          have hd := hq p d (by rw [hqp]; exact List.mem_cons_self _ _)
          by_cases h9 : d.channel = 9
          · rw [if_pos h9] at hn
            exact hl n hn
          · rw [if_neg h9] at hn
            rcases List.mem_append.mp hn with hold | hnew
            · exact hl n hold
            · rw [List.mem_singleton.mp hnew]
              constructor
              · show (0 : ℚ) ≤ _ - _
                have := hd.1
                linarith
              · show (0 : Int) ≤ _ - _
                have := hd.2
                omega
  cases mt with
  | set_tempo t => exact ⟨hadv.1, hadv.2⟩
  | time_signature n dd => exact ⟨hadv.1, hadv.2⟩
  | other => exact ⟨hadv.1, hadv.2⟩
  | note_off p v c => exact hoff p v c
  | note_on p v c =>
      by_cases hv : 0 < v
      · have hpos := process_message_note_on_pos tpb gp5 meta st p v c delta hv
        obtain ⟨hq, hl⟩ := hadv
        constructor
        · intro p2 d2 hd2
          rw [hpos.1] at hd2
          unfold update_queue at hd2
          rw [hpos.2.2.1, hpos.2.2.2]
          by_cases hpp : p2 = p
          · rw [if_pos hpp] at hd2
            rcases List.mem_append.mp hd2 with hold | hnew
            · exact hq p d2 hold
            · rw [List.mem_singleton.mp hnew]
              exact ⟨le_refl _, le_refl _⟩
          · rw [if_neg hpp] at hd2
            exact hq p2 d2 hd2
        · intro n hn
          rw [hpos.2.1] at hn
          exact hl n hn
      · have hv0 : v = 0 := by omega
        subst hv0
        have hpm : process_message tpb gp5 (meta, st)
              { type := MidiMsgType.note_on p 0 c, time := delta } =
            process_message tpb gp5 (meta, st)
              { type := MidiMsgType.note_off p 0 c, time := delta } := by
          rw [process_message_note_off_eq tpb gp5 meta st p 0 c delta _ (Or.inl rfl)]
          rw [process_message_note_off_eq tpb gp5 meta st p 0 c delta _ (Or.inr rfl)]
        rw [hpm]
        exact hoff p 0 c

theorem nonneg_track (tpb : Nat) (gp5 : PitchMap) :
    ∀ (msgs : List MidiMsg) (meta : SongMeta) (st : TrackState),
      (∀ m ∈ msgs, 0 ≤ m.time) → NonnegInv st →
      NonnegInv (List.foldl (process_message tpb gp5) (meta, st) msgs).2 := by
  intro msgs
  induction msgs with
  | nil => intro meta st hdelta h; exact h
  | cons m msgs ih =>
      intro meta st hdelta h
      rw [List.foldl_cons]
      have hstep := nonneg_step tpb gp5 meta st m (hdelta m (List.mem_cons_self _ _)) h
      have hrest : ∀ x ∈ msgs, 0 ≤ x.time := fun x hx => hdelta x (List.mem_cons_of_mem _ hx)
      have := ih (process_message tpb gp5 (meta, st) m).1
        (process_message tpb gp5 (meta, st) m).2 hrest hstep
      simpa using this

/-- C8: assuming every message delta-time is non-negative and every tempo in
force is positive, every note in the output track has non-negative duration
and durationTicks (the accumulated absolute position at the offset can never
be less than that of the paired onset). -/
theorem durations_nonneg :
    ∀ (tpb : Nat) (gp5 : PitchMap) (meta : SongMeta) (msgs : List MidiMsg),
      (∀ m ∈ msgs, 0 ≤ m.time) →
      (∀ m ∈ msgs, ∀ t, m.type = MidiMsgType.set_tempo t → 0 < t) →
      ∀ n ∈ track_output_notes tpb gp5 meta msgs,
        0 ≤ n.duration ∧ 0 ≤ n.durationTicks := by
  intro tpb gp5 meta msgs hdelta htempo n hn
  have hinv : NonnegInv (process_track tpb gp5 meta msgs).2 := by
    unfold process_track
    refine nonneg_track tpb gp5 msgs meta initTrackState hdelta ?_
    constructor
    · intro p d hd
      simp [initTrackState] at hd
    · intro x hx
      simp [initTrackState] at hx
  have hmem : n ∈ (process_track tpb gp5 meta msgs).2.note_data_list :=
    (perm_sortByTime _).mem_iff.mp hn
  exact hinv.2 n hmem

/-- Witness for C8 at fifoMsgs: the first emitted note (pitch 64, 20 ticks
long) has non-negative duration and durationTicks. -/
theorem durations_nonneg_witness : 0 ≤ c8note.duration ∧ 0 ≤ c8note.durationTicks := by
  refine durations_nonneg 480 [] initSongMeta fifoMsgs ?_ ?_ c8note ?_
  · intro m hm
    simp [fifoMsgs] at hm
    rcases hm with rfl | rfl | rfl | rfl <;> norm_num
  · intro m hm t ht
    simp [fifoMsgs] at hm
    rcases hm with rfl | rfl | rfl | rfl <;> cases ht
  · have hval :
        track_output_notes 480 [] initSongMeta fifoMsgs =
          [c8note,
           { duration := 1/48, durationTicks := 20, midi := 64, name := "E4",
             ticks := 10, time := 1/96, velocity := 100/127, string := none,
             fret := none }] := by
      have hname : midi_to_note_name 64 = "E4" := by decide
      norm_num [track_output_notes, process_track, process_message, handle_note_off,
        advance_time, emitted_note, tick2second, initTrackState, initSongMeta,
        fifoMsgs, update_queue, sortByTime, insertByTime, c8note, hname]
    rw [hval]
    exact List.mem_cons_self _ _

end Preprocess
